import Mathlib

/-! Verification of a small regex engine (src/regex.rs): tokenizer, NFA
construction from tokens, and a worklist search, embedded shallowly.
The search loop is embedded with explicit fuel, one unit per iteration
of the Rust loop `while let Some(..) = active_states.pop()`: a result
of `none` means the fuel ran out with work remaining, `some r` means
the loop finished with result `r` (where `r = none` is "no match"). -/

/-- Tokens produced by the tokenizer (src/regex.rs, enum Token). Note the
source has no alternation variant: the character `|` falls to the
catch-all arm of `tokenize`. -/
inductive Token where
  | char (c : Char)
  | dot
  | star
  | plus
  | question
  | lparen
  | rparen
deriving DecidableEq, Repr

/-- Embeds `tokenize` (src/regex.rs lines 15-25): one token per pattern
character, structural operators first, every other character a literal. -/
def tokenize (pattern : String) : List Token :=
  pattern.data.map fun c =>
    match c with
    | '.' => Token.dot
    | '*' => Token.star
    | '+' => Token.plus
    | '?' => Token.question
    | '(' => Token.lparen
    | ')' => Token.rparen
    | _ => Token.char c

/-- NFA states (src/regex.rs, enum State). `mtch` is the source's `Match`. -/
inductive State where
  | mtch
  | split (x y : Nat)
  | ch (c : Char) (next : Nat)
  | dot (next : Nat)
deriving DecidableEq, Repr

/-- The mutable compilation state of `NFA::from_tokens`: the states built
so far, the group stack, and the `prev` cursor. -/
structure CompSt where
  states : List State
  stack : List Nat
  prev : Nat
deriving Repr

/-- One iteration of the token loop in `NFA::from_tokens`
(src/regex.rs lines 46-76). -/
def stepToken (st : CompSt) (t : Token) : CompSt :=
  match t with
  | Token.char c =>
      { st with states := st.states ++ [State.ch c (st.prev + 1)], prev := st.prev + 1 }
  | Token.dot =>
      { st with states := st.states ++ [State.dot (st.prev + 1)], prev := st.prev + 1 }
  | Token.star =>
      { st with states := st.states ++ [State.split (st.prev + 1) st.prev] }
  | Token.plus =>
      { st with stack := st.prev :: st.stack }
  | Token.question =>
      { st with states := st.states ++ [State.split (st.prev + 1) (st.prev + 2)], prev := st.prev + 1 }
  | Token.lparen =>
      { st with stack := st.prev :: st.stack }
  | Token.rparen =>
      match st.stack with
      | [] => st
      | start :: rest =>
          { st with states := st.states ++ [State.split start st.prev], stack := rest }

/-- Embeds `NFA::from_tokens` (src/regex.rs lines 41-79): fold the token
loop from the empty state, then append the final Match state. -/
def fromTokens (tokens : List Token) : List State :=
  (tokens.foldl stepToken ⟨[], [], 0⟩).states ++ [State.mtch]

/-- The body of one iteration of the search loop (src/regex.rs lines
91-111), acting on the popped pair `(si, ti)` and the rest of the
worklist: `Sum.inl off` is the `return Some(text_idx)` of the Match arm,
`Sum.inr st` the worklist left for the next iteration. Rust pushes the
Split branches `x` then `y` onto the stack, so `y` is popped first; the
worklist is a list whose head is the next entry popped. -/
def stepEntry (states : List State) (chars : List Char) (si ti : Nat)
    (rest : List (Nat × Nat)) : Sum Nat (List (Nat × Nat)) :=
  if h : si < states.length then
    match states.get ⟨si, h⟩ with
    | State.mtch => Sum.inl ti
    | State.ch c next =>
        if hti : ti < chars.length then
          if chars.get ⟨ti, hti⟩ = c then Sum.inr ((next, ti + 1) :: rest)
          else Sum.inr rest
        else Sum.inr rest
    | State.dot next =>
        if ti < chars.length then Sum.inr ((next, ti + 1) :: rest)
        else Sum.inr rest
    | State.split x y => Sum.inr ((y, ti) :: (x, ti) :: rest)
  else Sum.inr rest

/-- Embeds `NFA::search` (src/regex.rs lines 87-114) with explicit fuel:
`none` is fuel exhaustion, `some r` the return value of the Rust loop. -/
def searchF (states : List State) (chars : List Char) :
    Nat → List (Nat × Nat) → Option (Option Nat)
  | _, [] => some none
  | 0, _ :: _ => none
  | fuel + 1, (si, ti) :: rest =>
    match stepEntry states chars si ti rest with
    | Sum.inl off => some (some off)
    | Sum.inr nxt => searchF states chars fuel nxt

/-- Embeds `Regex::new` followed by `Regex::find` (src/regex.rs lines
123-127 and 135-137): compile the pattern, search from `(0, 0)`. -/
def regexFind (pattern text : String) (fuel : Nat) : Option (Option Nat) :=
  searchF (fromTokens (tokenize pattern)) text.data fuel [(0, 0)]

/-- Embeds `Regex::is_match` (src/regex.rs lines 82-84 and 130-132):
`search(text).is_some()`, lifted over the fuel. -/
def regexIsMatch (pattern text : String) (fuel : Nat) : Option Bool :=
  (regexFind pattern text fuel).map Option.isSome

/-- Instrumented variant of `stepEntry` in which the two slice-indexing
operations of the Rust source (`self.states[state_idx]` on line 95 and
`text_chars[text_idx]` on line 98) are performed by lookup, with an
explicit error when the index is out of bounds — the event that would
panic in Rust. The surrounding bounds guards are those of the source. -/
def stepEntryChecked (states : List State) (chars : List Char) (si ti : Nat)
    (rest : List (Nat × Nat)) : Except String (Sum Nat (List (Nat × Nat))) :=
  if si < states.length then
    match states.get? si with
    | none => Except.error "state index out of bounds"
    | some State.mtch => Except.ok (Sum.inl ti)
    | some (State.ch c next) =>
        if ti < chars.length then
          match chars.get? ti with
          | none => Except.error "text index out of bounds"
          | some c2 =>
              if c2 = c then Except.ok (Sum.inr ((next, ti + 1) :: rest))
              else Except.ok (Sum.inr rest)
        else Except.ok (Sum.inr rest)
    | some (State.dot next) =>
        if ti < chars.length then Except.ok (Sum.inr ((next, ti + 1) :: rest))
        else Except.ok (Sum.inr rest)
    | some (State.split x y) => Except.ok (Sum.inr ((y, ti) :: (x, ti) :: rest))
  else Except.ok (Sum.inr rest)

/-- The search loop over the instrumented step: an `Except.error` would
mean some iteration indexed out of bounds (a Rust panic). -/
def searchChecked (states : List State) (chars : List Char) :
    Nat → List (Nat × Nat) → Except String (Option (Option Nat))
  | _, [] => Except.ok (some none)
  | 0, _ :: _ => Except.ok none
  | fuel + 1, (si, ti) :: rest =>
    match stepEntryChecked states chars si ti rest with
    | Except.error e => Except.error e
    | Except.ok (Sum.inl off) => Except.ok (some (some off))
    | Except.ok (Sum.inr nxt) => searchChecked states chars fuel nxt

/-- The instrumented search at the facade level, as in `regexFind`. -/
def regexFindChecked (pattern text : String) (fuel : Nat) :
    Except String (Option (Option Nat)) :=
  searchChecked (fromTokens (tokenize pattern)) text.data fuel [(0, 0)]

/-- The indices referenced by one state: the `next` of Char and Dot, the
two branches of Split, nothing for Match. -/
def stateRefs : State → List Nat
  | State.mtch => []
  | State.split x y => [x, y]
  | State.ch _ next => [next]
  | State.dot next => [next]

/-- The Program invariant claimed by the spec (section 3): every index
referenced by any state is a valid index into the same state list. -/
def wellIndexed (states : List State) : Bool :=
  states.all fun s => (stateRefs s).all fun n => n < states.length

/-! Unfolding equations for the fueled loops, as plain `rfl` lemmas. -/

theorem searchF_nil (states : List State) (chars : List Char) (fuel : Nat) :
    searchF states chars fuel [] = some none := by
  cases fuel <;> rfl

theorem searchF_zero (states : List State) (chars : List Char)
    (p : Nat × Nat) (rest : List (Nat × Nat)) :
    searchF states chars 0 (p :: rest) = none := rfl

theorem searchF_succ (states : List State) (chars : List Char) (fuel si ti : Nat)
    (rest : List (Nat × Nat)) :
    searchF states chars (fuel + 1) ((si, ti) :: rest) =
      match stepEntry states chars si ti rest with
      | Sum.inl off => some (some off)
      | Sum.inr nxt => searchF states chars fuel nxt := rfl

theorem searchChecked_succ (states : List State) (chars : List Char) (fuel si ti : Nat)
    (rest : List (Nat × Nat)) :
    searchChecked states chars (fuel + 1) ((si, ti) :: rest) =
      match stepEntryChecked states chars si ti rest with
      | Except.error e => Except.error e
      | Except.ok (Sum.inl off) => Except.ok (some (some off))
      | Except.ok (Sum.inr nxt) => searchChecked states chars fuel nxt := rfl

/-- A search run that finishes keeps its result under any extra fuel. -/
theorem searchF_mono (states : List State) (chars : List Char) :
    ∀ (fuel : Nat) (st : List (Nat × Nat)) (r : Option Nat) (k : Nat),
      searchF states chars fuel st = some r →
      searchF states chars (fuel + k) st = some r := by
  intro fuel
  induction fuel with
  | zero =>
    intro st r k h
    cases st with
    | nil =>
      rw [searchF_nil] at h
      rw [searchF_nil, h]
    | cons p rest =>
      rw [searchF_zero] at h
      exact absurd h (by simp)
  | succ n ih =>
    intro st r k h
    cases st with
    | nil =>
      rw [searchF_nil] at h
      rw [searchF_nil, h]
    | cons p rest =>
      obtain ⟨si, ti⟩ := p
      have hk : n + 1 + k = (n + k) + 1 := by omega
      rw [hk, searchF_succ]
      rw [searchF_succ] at h
      cases hs : stepEntry states chars si ti rest with
      | inl off =>
        rw [hs] at h
        exact h
      | inr nxt =>
        rw [hs] at h
        exact ih nxt r k h

/-- Fuel monotonicity at the facade level. -/
theorem regexFind_mono (pattern text : String) (fuel k : Nat) (r : Option Nat)
    (h : regexFind pattern text fuel = some r) :
    regexFind pattern text (fuel + k) = some r :=
  searchF_mono _ _ fuel _ r k h

/-- The instrumented step never errors: each of the source's indexing
operations sits behind its bounds guard. -/
theorem stepEntryChecked_eq (states : List State) (chars : List Char)
    (si ti : Nat) (rest : List (Nat × Nat)) :
    stepEntryChecked states chars si ti rest =
      Except.ok (stepEntry states chars si ti rest) := by
  unfold stepEntryChecked stepEntry
  by_cases h : si < states.length
  · rw [if_pos h, dif_pos h, List.get?_eq_get h]
    cases hg : states.get ⟨si, h⟩ with
    | mtch => rfl
    | split x y => rfl
    | dot next =>
      by_cases hti : ti < chars.length
      · simp [hti]
      · simp [hti]
    | ch c next =>
      by_cases hti : ti < chars.length
      · simp [hti, List.get?_eq_get hti, apply_ite]
      · simp [hti]
  · rw [if_neg h, dif_neg h]

/-- The instrumented search never errors and computes the same result as
the plain search. -/
theorem searchChecked_eq (states : List State) (chars : List Char) :
    ∀ (fuel : Nat) (st : List (Nat × Nat)),
      searchChecked states chars fuel st =
        Except.ok (searchF states chars fuel st) := by
  intro fuel
  induction fuel with
  | zero =>
    intro st
    cases st with
    | nil => rfl
    | cons p rest => rfl
  | succ n ih =>
    intro st
    cases st with
    | nil => rfl
    | cons p rest =>
      obtain ⟨si, ti⟩ := p
      rw [searchChecked_succ, searchF_succ, stepEntryChecked_eq]
      cases hs : stepEntry states chars si ti rest with
      | inl off => rfl
      | inr nxt => exact ih nxt

/-- In the program compiled from the pattern `a*`, the worklist entry
`(1, 1)` reproduces itself at the top of the stack: state 1 is
`Split 2 1`, whose second branch is state 1 itself and is pushed last,
hence popped first. The search therefore exhausts any fuel. -/
theorem star_search_loops (fuel : Nat) : ∀ L : List (Nat × Nat),
    searchF [State.ch 'a' 1, State.split 2 1, State.mtch] ['a']
      fuel ((1, 1) :: L) = none := by
  induction fuel with
  | zero => intro L; rfl
  | succ n ih =>
    intro L
    have h : searchF [State.ch 'a' 1, State.split 2 1, State.mtch] ['a']
        (n + 1) ((1, 1) :: L) =
        searchF [State.ch 'a' 1, State.split 2 1, State.mtch] ['a']
        n ((1, 1) :: (2, 1) :: L) := rfl
    rw [h]
    exact ih ((2, 1) :: L)

/-- C1: the claim states that the worklist search terminates on every
compiled pattern and text, never revisiting an (instruction, offset)
pair and processing at most (instructions) x (text length + 1) entries.
The code has no visited set: for the pattern `a*` and the text `"a"` the
search re-pops the pair `(1, 1)` forever, so the fueled loop exhausts
every fuel bound and the Rust loop never returns. -/
theorem claim_C1_search_diverges_on_star :
    ∀ fuel : Nat, regexFind "a*" "a" fuel = none := by
  intro fuel
  cases fuel with
  | zero => rfl
  | succ n =>
    have h : regexFind "a*" "a" (n + 1) =
        searchF [State.ch 'a' 1, State.split 2 1, State.mtch] ['a'] n [(1, 1)] := rfl
    rw [h]
    exact star_search_loops n []

/-- C2: the claim states that compiling `"(a"` and `")a"` reports an
UnbalancedGroup error. The code has no error path at all: `Regex::new`
is infallible, the unclosed `(` merely leaves an entry on the group
stack and the unopened `)` is silently skipped, and both patterns
compile to the same two-state program as the pattern `"a"`. -/
theorem claim_C2_unbalanced_groups_compile_silently :
    fromTokens (tokenize "(a") = [State.ch 'a' 1, State.mtch] ∧
    fromTokens (tokenize ")a") = [State.ch 'a' 1, State.mtch] ∧
    fromTokens (tokenize "a") = [State.ch 'a' 1, State.mtch] :=
  ⟨rfl, rfl, rfl⟩

/-- C3: the claim states that the tokenizer maps all seven operator
characters, `|` included, to structural tokens. The source's `tokenize`
has match arms for only six of them; `|` falls to the catch-all arm and
becomes the literal-character token `Token.char '|'`. -/
theorem claim_C3_pipe_tokenized_as_literal :
    tokenize "|" = [Token.char '|'] ∧
    tokenize "(a|b)c" = [Token.lparen, Token.char 'a', Token.char '|',
      Token.char 'b', Token.rparen, Token.char 'c'] :=
  ⟨rfl, rfl⟩

/-- C4: the claim states that the pattern `(a|b)c` matches `"ac"` and
`"bc"` and not `"cc"`. Because `|` is compiled as a literal character
(see C3), the compiled program demands the literal sequence and the
search rejects all three texts: `is_match` returns false on `"ac"` and
on `"bc"`, contradicting the claim. -/
theorem claim_C4_alternation_pattern_rejects_ac_bc :
    regexIsMatch "(a|b)c" "ac" 20 = some false ∧
    regexIsMatch "(a|b)c" "bc" 20 = some false ∧
    regexIsMatch "(a|b)c" "cc" 20 = some false :=
  ⟨rfl, rfl, rfl⟩

/-- C5: the claim states that `is_match` on the empty text is true
exactly when the pattern's language contains the empty string, and in
particular that `a*` matches `""`. In the code the Star split is emitted
after the atom, so the program for `a*` starts with the `Char 'a'` state
and cannot skip it: the search on the empty text terminates with no
match and `is_match` returns false. The other two instances of the claim
(`"a"` and `""` on empty text) do hold. -/
theorem claim_C5_star_rejects_empty_text :
    regexIsMatch "a*" "" 10 = some false ∧
    regexIsMatch "a" "" 10 = some false ∧
    regexIsMatch "" "" 10 = some true :=
  ⟨rfl, rfl, rfl⟩

/-- C6: the claim states that every `next`/branch index stored in any
compiled instruction is a valid index of the program. The Question case
emits `Split (prev + 1) (prev + 2)`: for the pattern `a?` the compiled
program has three states with the final Match at index 2, yet the Split
carries the branch index 3, one past the end of the instruction list. -/
theorem claim_C6_question_emits_dangling_index :
    fromTokens (tokenize "a?") = [State.ch 'a' 1, State.split 2 3, State.mtch] ∧
    wellIndexed (fromTokens (tokenize "a?")) = false :=
  ⟨rfl, rfl⟩

/-- C7: the pattern `a.b` matches `"acb"` (the dot consumes exactly one
character) and matches neither `"ab"` nor `"axxb"`, at any sufficient
fuel. Confirms the claim. -/
theorem claim_C7_dot_consumes_one_char : ∀ k : Nat,
    regexIsMatch "a.b" "acb" (20 + k) = some true ∧
    regexIsMatch "a.b" "ab" (20 + k) = some false ∧
    regexIsMatch "a.b" "axxb" (20 + k) = some false := by
  intro k
  have h1 := regexFind_mono "a.b" "acb" 20 k (some 3) rfl
  have h2 := regexFind_mono "a.b" "ab" 20 k none rfl
  have h3 := regexFind_mono "a.b" "axxb" 20 k none rfl
  refine ⟨?_, ?_, ?_⟩ <;> simp [regexIsMatch, h1, h2, h3]

/-- C8: the pattern `a+` matches `"a"` and `"aaa"` and not `""`, at any
sufficient fuel. Confirms the claim (in the code `+` pushes onto the
group stack and emits nothing, so `a+` compiles exactly like `a`; the
three claimed outcomes nevertheless all hold). -/
theorem claim_C8_plus_requires_one_occurrence : ∀ k : Nat,
    regexIsMatch "a+" "a" (20 + k) = some true ∧
    regexIsMatch "a+" "aaa" (20 + k) = some true ∧
    regexIsMatch "a+" "" (20 + k) = some false := by
  intro k
  have h1 := regexFind_mono "a+" "a" 20 k (some 1) rfl
  have h2 := regexFind_mono "a+" "aaa" 20 k (some 1) rfl
  have h3 := regexFind_mono "a+" "" 20 k none rfl
  refine ⟨?_, ?_, ?_⟩ <;> simp [regexIsMatch, h1, h2, h3]

/-- C9: matching never raises an error or panics: both indexing
operations of the search sit behind their bounds guards, so the
instrumented search — which raises an explicit error exactly where the
Rust slice accesses would panic — returns `Except.ok` of the plain
search's value on every pattern, text, fuel and start state; absence of
a match is the plain value `none` inside that result. Confirms the
claim. -/
theorem claim_C9_search_never_panics (pattern text : String) (fuel : Nat) :
    regexFindChecked pattern text fuel = Except.ok (regexFind pattern text fuel) :=
  searchChecked_eq _ _ fuel _

/-- C10: `is_match` is the boolean image of `find`: at every fuel,
`is_match` reports true exactly when `find` terminates with some offset.
Confirms the claim. -/
theorem claim_C10_is_match_iff_find_some (pattern text : String) (fuel : Nat) :
    regexIsMatch pattern text fuel = some true ↔
      ∃ off : Nat, regexFind pattern text fuel = some (some off) := by
  unfold regexIsMatch
  cases h : regexFind pattern text fuel with
  | none => simp
  | some r =>
    cases r with
    | none => simp
    | some off => simp
